import Mathlib

/-!
Verification of the YOLO label utilities (`remap_yolo_labels.py` and
`preview_labels.py`).  File contents are modelled as lists of characters
(`List Char`); the Python string operations used by the scripts
(`str.strip`, `str.split`, `str.splitlines`, `int`, `float`, `" ".join`)
are given char-level executable models, and the two scripts' functions are
translated on top of them.  Float coordinates are modelled as exact
rationals.  Fallible Python code (exceptions) is modelled with
`Except`/`Option`.
-/

namespace YoloSpec

/-- Model of Python `str.strip()`: drop leading and trailing whitespace. -/
def stripL (l : List Char) : List Char :=
  ((l.dropWhile Char.isWhitespace).reverse.dropWhile Char.isWhitespace).reverse

/-- Split a char list at every occurrence of a separator character.
Models Python `str.split(sep)` for a one-character separator, and (after the
leading `strip()` the scripts always perform) `str.splitlines()` when the
separator is a newline. -/
def splitOnChar (sep : Char) : List Char → List (List Char)
  | [] => [[]]
  | c :: rest =>
    match splitOnChar sep rest with
    | [] => [[]]
    | grp :: grps => if c = sep then [] :: grp :: grps else (c :: grp) :: grps

/-- Split a char list at every character satisfying `p`, keeping empty
groups. -/
def splitPredChar (p : Char → Bool) : List Char → List (List Char)
  | [] => [[]]
  | c :: rest =>
    match splitPredChar p rest with
    | [] => [[]]
    | grp :: grps => if p c then [] :: grp :: grps else (c :: grp) :: grps

/-- Model of Python `str.split()` (no argument): split on whitespace and
drop empty tokens. -/
def splitWsL (l : List Char) : List (List Char) :=
  (splitPredChar Char.isWhitespace l).filter (fun g => !g.isEmpty)

def digitVal (c : Char) : Nat := c.toNat - '0'.toNat

def digitsToNatAux : List Char → Nat → Option Nat
  | [], acc => some acc
  | c :: rest, acc =>
    if c.isDigit then digitsToNatAux rest (10 * acc + digitVal c) else none

/-- Parse a non-empty all-digit char list as a natural number. -/
def digitsToNat (l : List Char) : Option Nat :=
  if l.isEmpty then none else digitsToNatAux l 0

/-- Model of Python `int(token)` on a whitespace-free token: optional sign
followed by decimal digits. -/
def pyIntL : List Char → Option Int
  | '-' :: rest => (digitsToNat rest).map (fun n => -(n : Int))
  | '+' :: rest => (digitsToNat rest).map (fun n => (n : Int))
  | l => (digitsToNat l).map (fun n => (n : Int))

def pyFloatCore (l : List Char) : Option ℚ :=
  match splitOnChar '.' l with
  | [a] => (digitsToNat a).map (fun n => (n : ℚ))
  | [a, b] =>
    if a.isEmpty && b.isEmpty then none
    else
      match (if a.isEmpty then some 0 else digitsToNat a),
            (if b.isEmpty then some 0 else digitsToNat b) with
      | some ip, some fp => some ((ip : ℚ) + (fp : ℚ) / ((10 : ℚ) ^ b.length))
      | _, _ => none
  | _ => none

/-- Model of Python `float(token)` on the decimal tokens appearing in label
files: optional sign, digits, optional decimal point.  The result is the
exact rational value. -/
def pyFloatL : List Char → Option ℚ
  | '-' :: rest => (pyFloatCore rest).map (fun q => -q)
  | '+' :: rest => pyFloatCore rest
  | l => pyFloatCore l

/-- Model of Python `str(i)` for an integer. -/
def intToChars (i : Int) : List Char :=
  if i < 0 then '-' :: Nat.toDigits 10 i.natAbs else Nat.toDigits 10 i.natAbs

/-- Model of Python `" ".join(parts)`. -/
def joinSpace (parts : List (List Char)) : List Char :=
  List.intercalate [' '] parts

/-!  ## `remap_yolo_labels.py`  -/

/-- The Python exceptions `remap_file` can raise: the explicit `ValueError`
for a class id missing from the mapping, and the `ValueError` that
`int(parts[0])` raises on a non-integer token. -/
inductive PyErr where
  | valueErrorUnknownId (path : List Char) (id : Int)
  | valueErrorBadLiteral (tok : List Char)
  deriving DecidableEq, Repr

/-- The message of the `ValueError` raised by `remap_file`:
`f"Label x contains unknown class id n."` with the file path and the
offending id interpolated. -/
def PyErr.message : PyErr → List Char
  | PyErr.valueErrorUnknownId path id =>
    ("Label ").data ++ path ++ (" contains unknown class id ").data ++
      intToChars id ++ (".").data
  | PyErr.valueErrorBadLiteral tok =>
    ("invalid literal for int: ").data ++ tok

/-- The loop body of `remap_file`: walk the lines, skip blank lines, parse
the leading class id of each remaining line, fail on an id missing from the
mapping, otherwise substitute the destination id and re-join the tokens
with single spaces.  Returns the `changed` flag together with the rewritten
lines.  A Python `dict[int, int]` is modelled as `Int → Option Int`
(`src_id not in mapping` is `m srcId = none`). -/
def remapLines (path : List Char) (m : Int → Option Int) :
    List (List Char) → Except PyErr (Bool × List (List Char))
  | [] => Except.ok (false, [])
  | line :: rest =>
    if (stripL line).isEmpty then remapLines path m rest
    else
      let parts := splitWsL line
      match pyIntL (parts.headD []) with
      | none => Except.error (PyErr.valueErrorBadLiteral (parts.headD []))
      | some srcId =>
        match m srcId with
        | none => Except.error (PyErr.valueErrorUnknownId path srcId)
        | some dstId =>
          match remapLines path m rest with
          | Except.error e => Except.error e
          | Except.ok (changed, newRest) =>
            Except.ok (decide (dstId ≠ srcId) || changed,
              joinSpace (intToChars dstId :: parts.tail) :: newRest)

/-- Model of `remap_file`: read the file, strip and split into lines, remap
every non-blank line, and write the re-joined lines (with a trailing
newline) back only when at least one id actually changed.  The returned
pair is the `changed` flag and the resulting on-disk content. -/
def remapFile (path : List Char) (m : Int → Option Int) (content : List Char) :
    Except PyErr (Bool × List Char) :=
  match remapLines path m (splitOnChar '\n' (stripL content)) with
  | Except.error e => Except.error e
  | Except.ok (changed, newLines) =>
    Except.ok (changed,
      if changed then List.intercalate ['\n'] newLines ++ ['\n'] else content)

/-- Model of the loop of `remap_split` over the label files of a split.
The filesystem is a list of `(path, content)` pairs; the result is the
final filesystem, the count of rewritten files, and the propagated
exception, if any.  On an exception the remaining files, including the
failing one, keep their contents. -/
def remapSplit (m : Int → Option Int) :
    List (List Char × List Char) → List (List Char × List Char) × Nat × Option PyErr
  | [] => ([], 0, none)
  | (p, c) :: rest =>
    match remapFile p m c with
    | Except.error e => ((p, c) :: rest, 0, some e)
    | Except.ok (changed, newC) =>
      let r := remapSplit m rest
      ((p, newC) :: r.1, (if changed then 1 else 0) + r.2.1, r.2.2)

/-- The class ids at the head of the non-blank lines, or `none` when a head
token is not an integer. -/
def lineIdsAux : List (List Char) → Option (List Int)
  | [] => some []
  | line :: rest =>
    if (stripL line).isEmpty then lineIdsAux rest
    else
      match pyIntL ((splitWsL line).headD []) with
      | none => none
      | some i => (lineIdsAux rest).map (fun l => i :: l)

/-- The class ids appearing in a label file, in line order. -/
def lineIds (content : List Char) : Option (List Int) :=
  lineIdsAux (splitOnChar '\n' (stripL content))

/-- The rewritten form of one non-blank line under a mapping that covers
its class id: the destination id followed by the untouched remaining
tokens, joined by single spaces. -/
def remapLineStr (m : Int → Option Int) (line : List Char) : List Char :=
  let parts := splitWsL line
  match pyIntL (parts.headD []) with
  | some i =>
    match m i with
    | some d => joinSpace (intToChars d :: parts.tail)
    | none => line
  | none => line

/-!  ## `preview_labels.py`  -/

/-- The loop body of `parse_labels`: skip empty lines, unpack exactly five
whitespace-separated tokens per remaining line, and convert them with
`int`/`float`.  `none` models the `ValueError` Python raises when the
unpack or a conversion fails; a failure anywhere discards the whole file's
records, as the exception does. -/
def parseLabelsLines : List (List Char) → Option (List (Int × ℚ × ℚ × ℚ × ℚ))
  | [] => some []
  | line :: rest =>
    if line.isEmpty then parseLabelsLines rest
    else
      match splitWsL line with
      | [c, x, y, w, h] =>
        match pyIntL c, pyFloatL x, pyFloatL y, pyFloatL w, pyFloatL h with
        | some ci, some xq, some yq, some wq, some hq =>
          (parseLabelsLines rest).map (fun r => (ci, xq, yq, wq, hq) :: r)
        | _, _, _, _, _ => none
      | _ => none

/-- Model of `parse_labels`: strip the file content, split it into lines,
and parse each non-empty line into a record. -/
def parse_labels (content : List Char) :
    Option (List (Int × ℚ × ℚ × ℚ × ℚ)) :=
  parseLabelsLines (splitOnChar '\n' (stripL content))

/-- Model of `denorm_box`: convert center-relative normalized coordinates
to absolute pixel coordinates and clamp the corners to the image bounds.
Python floats are modelled as exact rationals. -/
def denorm_box (cx cy w h : ℚ) (width height : Int) :
    ℚ × ℚ × ℚ × ℚ :=
  let x0 := (cx - w / 2) * (width : ℚ)
  let y0 := (cy - h / 2) * (height : ℚ)
  let x1 := (cx + w / 2) * (width : ℚ)
  let y1 := (cy + h / 2) * (height : ℚ)
  (max 0 x0, max 0 y0, min (width : ℚ) x1, min (height : ℚ) y1)

/-- Model of `images_dir / f"stem.ext"`: join a directory and a file name
with a path separator. -/
def pathJoin (dir name : List Char) : List Char := dir ++ '/' :: name

/-- The fixed extension trial order of `find_image`. -/
def imageExts : List (List Char) := [(".jpg").data, (".jpeg").data, (".png").data]

def findImageAux (ex : List Char → Bool) (dir stem : List Char) :
    List (List Char) → Option (List Char)
  | [] => none
  | e :: rest =>
    let cand := pathJoin dir (stem ++ e)
    if ex cand then some cand else findImageAux ex dir stem rest

/-- The message of the `FileNotFoundError` raised by `find_image`:
`f"No image file found for stem in images_dir"`. -/
def noImageMsg (stem dir : List Char) : List Char :=
  ("No image file found for ").data ++ stem ++ (" in ").data ++ dir

/-- Model of `find_image`: try the extensions of `imageExts` in order
against the filesystem-existence predicate `ex` and return the first
existing candidate, or fail with the "no image found" error. -/
def find_image (ex : List Char → Bool) (dir stem : List Char) :
    Except (List Char) (List Char) :=
  match findImageAux ex dir stem imageExts with
  | some c => Except.ok c
  | none => Except.error (noImageMsg stem dir)

/-- Lexicographic sorting of the globbed file names, modelling Python
`sorted(labels_dir.glob("*.txt"))` (paths in one directory compare by
their name strings, i.e. lexicographically by code point). -/
def sortedFiles (files : List (List Char)) : List (List Char) :=
  List.insertionSort (fun a b : List Char => a ≤ b) files

/-- Modelled from the spec: the Python `random` module used by
`pick_label_files` (the process-wide generator seeded by `random.seed` in
`main` and consumed by `random.shuffle`) is not part of this repository.
The spec only requires that the shuffle be a deterministic function of the
caller-supplied seed and of the input list, so the generator is modelled by
a linear-congruential step on the seed. -/
def lcgNext (s : Nat) : Nat := (1103515245 * s + 12345) % 2147483648

/-- Insert an element at a given position of a list. -/
def insertAtPos (i : Nat) (a : α) (l : List α) : List α :=
  l.take i ++ a :: l.drop i

/-- Modelled from the spec: a Fisher–Yates-style shuffle driven by
`lcgNext`, standing in for `random.shuffle`; deterministic in the seed and
the input list, and a permutation of its input. -/
def shuffleGo : Nat → List α → List α
  | _, [] => []
  | s, a :: rest =>
    let r := shuffleGo (lcgNext s) rest
    insertAtPos (s % (r.length + 1)) a r

/-- Modelled from the spec: the seeded shuffle, see `shuffleGo`. -/
def shuffleL (seed : Nat) (l : List α) : List α := shuffleGo (lcgNext seed) l

/-- Model of `pick_label_files`: sort the label files, optionally shuffle
them with the seeded generator, and truncate to `count`.  The seed is the
value `main` passes to `random.seed`, threaded explicitly. -/
def pick_label_files (seed : Nat) (files : List (List Char)) (count : Nat)
    (randomize : Bool) : List (List Char) :=
  let sorted := sortedFiles files
  let files2 := if randomize then shuffleL seed sorted else sorted
  files2.take count

/-- Model of Python list indexing `l[i]` with an `Int` index: negative
indices count from the end; `none` models the `IndexError` on an
out-of-range index. -/
def pyIndex (l : List (List Char)) (i : Int) : Option (List Char) :=
  let j : Int := if i < 0 then i + l.length else i
  if 0 ≤ j ∧ j < (l.length : Int) then l.get? j.toNat else none

/-- The synthesized fallback display name `f"id_cls"` of `draw_boxes`. -/
def idFallbackChars (i : Int) : List Char := ("id_").data ++ intToChars i

/-- The display-name resolution of `draw_boxes`:
`class_names[cls_id] if cls_id < len(class_names) else f"id_cls_id"`. -/
def displayLabel (classNames : List (List Char)) (clsId : Int) :
    Option (List Char) :=
  if clsId < (classNames.length : Int) then pyIndex classNames clsId
  else some (idFallbackChars clsId)

/-!  ## Helper lemmas  -/

/-- Whether `remap_file` would rewrite a file (successful run with at least
one changed id). -/
def isChangedFile (m : Int → Option Int) (pc : List Char × List Char) : Bool :=
  match remapFile pc.1 m pc.2 with
  | Except.ok (true, _) => true
  | _ => false

theorem remapLineStr_eq (m : Int → Option Int) (line : List Char) (i d : Int)
    (hpy : pyIntL ((splitWsL line).headD []) = some i) (hd : m i = some d) :
    remapLineStr m line = joinSpace (intToChars d :: (splitWsL line).tail) := by
  simp only [remapLineStr, hpy, hd]

theorem remapLines_ok (p : List Char) (m : Int → Option Int)
    (ls : List (List Char)) :
    ∀ ids, lineIdsAux ls = some ids → (∀ i ∈ ids, (m i).isSome) →
      remapLines p m ls =
        Except.ok (ids.any (fun i => decide ((m i).getD i ≠ i)),
          (ls.filter (fun ℓ => !(stripL ℓ).isEmpty)).map (remapLineStr m)) := by
  induction ls with
  | nil =>
    intro ids h _
    simp only [lineIdsAux, Option.some.injEq] at h
    subst h
    simp [remapLines]
  | cons line rest ih =>
    intro ids h hall
    by_cases hb : (stripL line).isEmpty = true
    · rw [lineIdsAux] at h
      rw [remapLines]
      simp only [hb, if_true] at h ⊢
      rw [ih ids h hall]
      simp [List.filter_cons, hb]
    · rw [lineIdsAux] at h
      rw [remapLines]
      simp only [hb, if_false] at h ⊢
      cases hpy : pyIntL ((splitWsL line).headD []) with
      | none => rw [hpy] at h; simp at h
      | some i =>
        rw [hpy] at h
        obtain ⟨ids', hrest, rfl⟩ : ∃ ids', lineIdsAux rest = some ids' ∧ ids = i :: ids' := by
          cases hr : lineIdsAux rest with
          | none => rw [hr] at h; simp at h
          | some l => rw [hr] at h; simp at h; exact ⟨l, rfl, h.symm⟩
        have hi : (m i).isSome := hall i (by simp)
        obtain ⟨d, hd⟩ : ∃ d, m i = some d := Option.isSome_iff_exists.mp hi
        have hb' : (stripL line).isEmpty = false := by simpa using hb
        rw [ih ids' hrest (fun j hj => hall j (by simp [hj]))]
        simp [hpy, hd, List.filter_cons, hb', remapLineStr_eq m line i d hpy hd]


theorem remapLines_error (p : List Char) (m : Int → Option Int)
    (ls : List (List Char)) :
    ∀ ids j, lineIdsAux ls = some ids →
      ids.find? (fun i => (m i).isNone) = some j →
      remapLines p m ls = Except.error (PyErr.valueErrorUnknownId p j) := by
  induction ls with
  | nil =>
    intro ids j h hj
    simp only [lineIdsAux, Option.some.injEq] at h
    subst h
    simp at hj
  | cons line rest ih =>
    intro ids j h hj
    by_cases hb : (stripL line).isEmpty = true
    · rw [lineIdsAux] at h
      rw [remapLines]
      simp only [hb, if_true] at h ⊢
      exact ih ids j h hj
    · have hb' : (stripL line).isEmpty = false := by simpa using hb
      rw [lineIdsAux] at h
      rw [remapLines]
      simp only [hb', Bool.false_eq_true, if_false] at h ⊢
      cases hpy : pyIntL ((splitWsL line).headD []) with
      | none => rw [hpy] at h; simp at h
      | some i =>
        rw [hpy] at h
        obtain ⟨ids', hrest, rfl⟩ :
            ∃ ids', lineIdsAux rest = some ids' ∧ ids = i :: ids' := by
          cases hr : lineIdsAux rest with
          | none => rw [hr] at h; simp at h
          | some l => rw [hr] at h; simp at h; exact ⟨l, rfl, h.symm⟩
        cases hmi : m i with
        | none =>
          have hj' : j = i := by
            simp [List.find?_cons, hmi] at hj
            exact hj.symm
          subst hj'
          simp [hpy, hmi]
        | some d =>
          have hj' : ids'.find? (fun i => (m i).isNone) = some j := by
            simpa [List.find?_cons, hmi] using hj
          simp [hpy, hmi, ih ids' j hrest hj']

theorem remapSplit_error_after (m : Int → Option Int) (p c : List Char)
    (e : PyErr) (he : remapFile p m c = Except.error e) :
    ∀ pre post, (remapSplit m pre).2.2 = none →
      remapSplit m (pre ++ (p, c) :: post) =
        ((remapSplit m pre).1 ++ (p, c) :: post, (remapSplit m pre).2.1, some e) := by
  intro pre
  induction pre with
  | nil =>
    intro post _
    simp [remapSplit, he]
  | cons qd pre' ih =>
    obtain ⟨q, d⟩ := qd
    intro post hok
    cases hqd : remapFile q m d with
    | error e' => simp [remapSplit, hqd] at hok
    | ok b =>
      obtain ⟨ch, nc⟩ := b
      have hok' : (remapSplit m pre').2.2 = none := by
        simpa [remapSplit, hqd] using hok
      simp [remapSplit, hqd, ih post hok']

theorem remapSplit_count (m : Int → Option Int) :
    ∀ files, (remapSplit m files).2.2 = none →
      (remapSplit m files).2.1 = files.countP (isChangedFile m) := by
  intro files
  induction files with
  | nil => intro _; simp [remapSplit]
  | cons pc rest ih =>
    obtain ⟨p, c⟩ := pc
    intro hok
    cases hpc : remapFile p m c with
    | error e => simp [remapSplit, hpc] at hok
    | ok b =>
      obtain ⟨ch, nc⟩ := b
      have hok' : (remapSplit m rest).2.2 = none := by
        simpa [remapSplit, hpc] using hok
      have hch : isChangedFile m (p, c) = ch := by
        cases ch <;> simp [isChangedFile, hpc]
      simp [remapSplit, hpc, List.countP_cons, hch, ih hok']
      cases ch
      all_goals simp
      all_goals omega

/-!  ## Concrete mappings and files used by witnesses  -/

/-- The mapping `{2: 0}` of end-to-end scenario A. -/
def map20 : Int → Option Int := fun i => if i = 2 then some 0 else none

/-- The mapping `{0: 0}` of end-to-end scenario B. -/
def map00 : Int → Option Int := fun i => if i = 0 then some 0 else none

/-- A mapping covering only the class ids 0, 1, 2 (scenario C), swapping
0 and 1. -/
def map012swap : Int → Option Int := fun i =>
  if i = 0 then some 1 else if i = 1 then some 0 else
  if i = 2 then some 2 else none

/-!  ## Claims  -/

/-- C1: if a label file contains a class id that is not a key of the
mapping, `remap_file` fails with the "unknown class id" `ValueError`
carrying the offending file path and the first unknown id, whose rendered
message names both; and `remap_split` propagates that failure, leaving the
failing file and every file after it (any `post`) with their original
contents while only files processed before it (any successfully processed
`pre`) may have been rewritten. -/
theorem claim_C1_remap_unknown_id (p : List Char) (m : Int → Option Int)
    (content : List Char) (ids : List Int) (j : Int)
    (h : lineIds content = some ids)
    (hj : ids.find? (fun i => (m i).isNone) = some j) :
    remapFile p m content = Except.error (PyErr.valueErrorUnknownId p j) ∧
    (PyErr.valueErrorUnknownId p j).message =
      ("Label ").data ++ p ++ (" contains unknown class id ").data ++
        intToChars j ++ (".").data ∧
    ∀ pre post, (remapSplit m pre).2.2 = none →
      remapSplit m (pre ++ (p, content) :: post) =
        ((remapSplit m pre).1 ++ (p, content) :: post, (remapSplit m pre).2.1,
          some (PyErr.valueErrorUnknownId p j)) := by
  have he : remapFile p m content =
      Except.error (PyErr.valueErrorUnknownId p j) := by
    have := remapLines_error p m (splitOnChar '\n' (stripL content)) ids j
      (by simpa [lineIds] using h) hj
    simp [remapFile, this]
  exact ⟨he, rfl, fun pre post hok =>
    remapSplit_error_after m p content _ he pre post hok⟩

/-- Witness for C1: scenario C, a file with class id 5 under a mapping
covering only 0, 1, 2, sitting between a file that is rewritten and a file
that is not reached. -/
theorem claim_C1_witness :
    remapFile ("b.txt").data map012swap ("5 0.1 0.1 0.1 0.1\n").data
      = Except.error (PyErr.valueErrorUnknownId ("b.txt").data 5) ∧
    remapSplit map012swap
        ([(("a.txt").data, ("1 0.5 0.5 0.2 0.2\n").data)] ++
          (("b.txt").data, ("5 0.1 0.1 0.1 0.1\n").data) ::
            [(("c.txt").data, ("2 0.3 0.3 0.1 0.1\n").data)]) =
      ((remapSplit map012swap
          [(("a.txt").data, ("1 0.5 0.5 0.2 0.2\n").data)]).1 ++
          (("b.txt").data, ("5 0.1 0.1 0.1 0.1\n").data) ::
            [(("c.txt").data, ("2 0.3 0.3 0.1 0.1\n").data)],
        (remapSplit map012swap
          [(("a.txt").data, ("1 0.5 0.5 0.2 0.2\n").data)]).2.1,
        some (PyErr.valueErrorUnknownId ("b.txt").data 5)) := by
  have h := claim_C1_remap_unknown_id ("b.txt").data map012swap
      ("5 0.1 0.1 0.1 0.1\n").data [5] 5 (by decide) (by decide)
  exact ⟨h.1, h.2.2 [(("a.txt").data, ("1 0.5 0.5 0.2 0.2\n").data)]
      [(("c.txt").data, ("2 0.3 0.3 0.1 0.1\n").data)] (by decide)⟩

/-- C2: when every class id of a file is a key of the mapping,
`remap_file` substitutes the destination id for the first token of each
non-blank line, keeping the remaining (coordinate) tokens unchanged, and
`remap_split` returns the number of files actually rewritten; concretely
(scenario A) the file `2 0.5 0.5 0.2 0.2` under `{2: 0}` becomes
`0 0.5 0.5 0.2 0.2` and the split reports 1 file changed. -/
theorem claim_C2_remap_substitutes :
    (∀ (p : List Char) (m : Int → Option Int) (ls : List (List Char))
        (ids : List Int),
        lineIdsAux ls = some ids → (∀ i ∈ ids, (m i).isSome) →
        remapLines p m ls =
          Except.ok (ids.any (fun i => decide ((m i).getD i ≠ i)),
            (ls.filter (fun ℓ => !(stripL ℓ).isEmpty)).map (remapLineStr m))) ∧
    (∀ (m : Int → Option Int) (files : List (List Char × List Char)),
        (remapSplit m files).2.2 = none →
        (remapSplit m files).2.1 = files.countP (isChangedFile m)) ∧
    remapFile ("a.txt").data map20 ("2 0.5 0.5 0.2 0.2\n").data
      = Except.ok (true, ("0 0.5 0.5 0.2 0.2\n").data) ∧
    remapSplit map20 [(("a.txt").data, ("2 0.5 0.5 0.2 0.2\n").data)] =
      ([(("a.txt").data, ("0 0.5 0.5 0.2 0.2\n").data)], 1, none) :=
  ⟨fun p m ls ids h hall => remapLines_ok p m ls ids h hall,
    fun m files h => remapSplit_count m files h, rfl, rfl⟩

/-- Witness for C2: the per-line substitution statement instantiated on the
scenario-A line. -/
theorem claim_C2_witness :
    remapLines ("a.txt").data map20 [("2 0.5 0.5 0.2 0.2").data] =
      Except.ok (true, [("0 0.5 0.5 0.2 0.2").data]) := by
  have h := claim_C2_remap_substitutes.1 ("a.txt").data map20
      [("2 0.5 0.5 0.2 0.2").data] [2] (by decide) (by decide)
  rw [h]
  rfl

/-- C3: when the mapping sends every class id present in the file to
itself, `remap_file` reports `changed = false` and the on-disk content is
returned byte-for-byte unchanged (no rewrite happens); since the output
equals the input, a second run under a mapping that is the identity on the
resulting ids again changes nothing. -/
theorem claim_C3_identity_noop (p : List Char) (m : Int → Option Int)
    (content : List Char) (ids : List Int)
    (h : lineIds content = some ids) (hid : ∀ i ∈ ids, m i = some i) :
    remapFile p m content = Except.ok (false, content) := by
  have hall : ∀ i ∈ ids, (m i).isSome := fun i hi => by simp [hid i hi]
  have hok := remapLines_ok p m (splitOnChar '\n' (stripL content)) ids
    (by simpa [lineIds] using h) hall
  have hany : ids.any (fun i => decide ((m i).getD i ≠ i)) = false := by
    rw [List.any_eq_false]
    intro i hi
    simp [hid i hi]
  simp only [remapFile, hok, hany]
  simp

/-- Witness for C3: scenario B, the file `0 0.5 0.5 0.2 0.2` under the
identity mapping `{0: 0}` is returned unchanged with `changed = false`. -/
theorem claim_C3_witness :
    remapFile ("a.txt").data map00 ("0 0.5 0.5 0.2 0.2\n").data
      = Except.ok (false, ("0 0.5 0.5 0.2 0.2\n").data) :=
  claim_C3_identity_noop ("a.txt").data map00 ("0 0.5 0.5 0.2 0.2\n").data
    [0] (by decide) (by decide)

theorem splitPredChar_ne_nil (p : Char → Bool) (l : List Char) :
    splitPredChar p l ≠ [] := by
  cases l with
  | nil => simp [splitPredChar]
  | cons c rest =>
    rw [splitPredChar]
    cases h : splitPredChar p rest with
    | nil => simp [h]
    | cons g gs =>
      simp only [h]
      split
      all_goals simp

theorem all_ws_of_stripL_nil (l : List Char) (h : stripL l = []) :
    ∀ c ∈ l, c.isWhitespace = true := by
  intro c hc
  have h2 : (l.dropWhile Char.isWhitespace).reverse.dropWhile
      Char.isWhitespace = [] := by
    simpa [stripL, List.reverse_eq_nil_iff] using h
  have h4 : ∀ x ∈ l.dropWhile Char.isWhitespace, Char.isWhitespace x = true := by
    intro x hx
    exact List.dropWhile_eq_nil_iff.mp h2 x (by simpa using hx)
  rw [← @List.takeWhile_append_dropWhile _ Char.isWhitespace l] at hc
  rcases List.mem_append.mp hc with h5 | h5
  · exact List.mem_takeWhile_imp h5
  · exact h4 c h5

theorem splitWsL_eq_nil (l : List Char)
    (hall : ∀ c ∈ l, c.isWhitespace = true) : splitWsL l = [] := by
  induction l with
  | nil => rfl
  | cons c rest ih =>
    have hc : c.isWhitespace = true := hall c (by simp)
    have hr := ih (fun x hx => hall x (by simp [hx]))
    rw [splitWsL, splitPredChar]
    cases hsp : splitPredChar Char.isWhitespace rest with
    | nil => exact absurd hsp (splitPredChar_ne_nil _ _)
    | cons g gs =>
      rw [splitWsL, hsp] at hr
      simpa [hc] using hr

theorem insertAtPos_perm {α : Type} (i : Nat) (a : α) (l : List α) :
    (insertAtPos i a l).Perm (a :: l) := by
  have h := @List.perm_middle _ a (l.take i) (l.drop i)
  rw [List.take_append_drop] at h
  exact h

theorem shuffleGo_perm {α : Type} (s : Nat) (l : List α) :
    (shuffleGo s l).Perm l := by
  induction l generalizing s with
  | nil => simp [shuffleGo]
  | cons a rest ih =>
    rw [shuffleGo]
    exact (insertAtPos_perm _ a _).trans (List.Perm.cons a (ih _))

theorem shuffleL_perm {α : Type} (seed : Nat) (l : List α) :
    (shuffleL seed l).Perm l :=
  shuffleGo_perm _ l

/-- C4: `denorm_box` returns exactly the clamped pixel-space corners
`(max 0 x0, max 0 y0, min width x1, min height y1)` of the denormalized
box; in particular for `cx = 0`, `w = 1/5`, `imageWidth = 100` the raw
`x0` is `-10` but the returned `x0` is clamped to `0`. -/
theorem claim_C4_denorm_clamps :
    (∀ (cx cy w h : ℚ) (width height : Int),
        denorm_box cx cy w h width height =
          (max 0 ((cx - w / 2) * (width : ℚ)),
           max 0 ((cy - h / 2) * (height : ℚ)),
           min (width : ℚ) ((cx + w / 2) * (width : ℚ)),
           min (height : ℚ) ((cy + h / 2) * (height : ℚ)))) ∧
    (denorm_box 0 (1 / 2) (1 / 5) (1 / 5) 100 100).1 = 0 ∧
    ((0 : ℚ) - (1 / 5) / 2) * ((100 : Int) : ℚ) = -10 := by
  refine ⟨fun cx cy w h width height => rfl, ?_, by norm_num⟩
  norm_num [denorm_box]

/-- C9: when no clamp fires (the denormalized corners lie inside the image
bounds) and the image dimensions are positive, re-normalizing the output of
`denorm_box` reproduces the original `(cx, cy, w, h)` exactly over the
rationals. -/
theorem claim_C9_roundtrip (cx cy w h x0 y0 x1 y1 : ℚ) (width height : Int)
    (hW : 0 < width) (hH : 0 < height)
    (h1 : 0 ≤ (cx - w / 2) * (width : ℚ))
    (h2 : 0 ≤ (cy - h / 2) * (height : ℚ))
    (h3 : (cx + w / 2) * (width : ℚ) ≤ (width : ℚ))
    (h4 : (cy + h / 2) * (height : ℚ) ≤ (height : ℚ))
    (heq : denorm_box cx cy w h width height = (x0, y0, x1, y1)) :
    (x0 + x1) / (2 * (width : ℚ)) = cx ∧ (x1 - x0) / (width : ℚ) = w ∧
    (y0 + y1) / (2 * (height : ℚ)) = cy ∧ (y1 - y0) / (height : ℚ) = h := by
  have hW' : ((width : ℚ)) ≠ 0 := by
    have : (0 : ℚ) < (width : ℚ) := by exact_mod_cast hW
    exact ne_of_gt this
  have hH' : ((height : ℚ)) ≠ 0 := by
    have : (0 : ℚ) < (height : ℚ) := by exact_mod_cast hH
    exact ne_of_gt this
  simp only [denorm_box] at heq
  rw [max_eq_right h1, max_eq_right h2, min_eq_right h3, min_eq_right h4]
    at heq
  obtain ⟨e1, e2, e3, e4⟩ : (cx - w / 2) * (width : ℚ) = x0 ∧
      (cy - h / 2) * (height : ℚ) = y0 ∧
      (cx + w / 2) * (width : ℚ) = x1 ∧
      (cy + h / 2) * (height : ℚ) = y1 := by
    simpa [Prod.ext_iff] using heq
  subst e1; subst e2; subst e3; subst e4
  refine ⟨?_, ?_, ?_, ?_⟩
  all_goals field_simp
  all_goals ring

/-- Witness for C9: the box `cx = cy = 1/2`, `w = h = 1/5` in a 100×100
image denormalizes to `(40, 40, 60, 60)` and re-normalizes to the original
coordinates. -/
theorem claim_C9_witness :
    ((40 : ℚ) + 60) / (2 * ((100 : Int) : ℚ)) = 1 / 2 ∧
    ((60 : ℚ) - 40) / ((100 : Int) : ℚ) = 1 / 5 ∧
    ((40 : ℚ) + 60) / (2 * ((100 : Int) : ℚ)) = 1 / 2 ∧
    ((60 : ℚ) - 40) / ((100 : Int) : ℚ) = 1 / 5 :=
  claim_C9_roundtrip (1 / 2) (1 / 2) (1 / 5) (1 / 5) 40 40 60 60 100 100
    (by norm_num) (by norm_num) (by norm_num) (by norm_num) (by norm_num)
    (by norm_num) (by norm_num [denorm_box])

/-- C5 (amended): blank lines are skipped by the remapper's loop (both
empty and whitespace-only lines yield no record and no failure), and
`parse_labels` skips fully empty lines; but a whitespace-only non-empty
line makes `parse_labels` fail, because `if not line` does not catch it
and unpacking its zero tokens raises. -/
theorem claim_C5_blank_lines (p : List Char) (m : Int → Option Int)
    (line : List Char) (rest : List (List Char)) :
    ((stripL line).isEmpty = true →
        remapLines p m (line :: rest) = remapLines p m rest ∧
        lineIdsAux (line :: rest) = lineIdsAux rest) ∧
    parseLabelsLines ([] :: rest) = parseLabelsLines rest ∧
    ((stripL line).isEmpty = true → line ≠ [] →
        parseLabelsLines (line :: rest) = none) := by
  refine ⟨fun hb => ⟨?_, ?_⟩, ?_, fun hb hne => ?_⟩
  · rw [remapLines]; simp [hb]
  · rw [lineIdsAux]; simp [hb]
  · rw [parseLabelsLines]; simp
  · rw [parseLabelsLines]
    have hsw : splitWsL line = [] :=
      splitWsL_eq_nil line
        (all_ws_of_stripL_nil line (List.isEmpty_iff.mp hb))
    have hne' : line.isEmpty = false := by
      cases line with
      | nil => exact absurd rfl hne
      | cons c cs => rfl
    simp [hne', hsw]

/-- Counterexample to C5 as stated: a file whose interior line is a single
space makes `parse_labels` fail (`none` models the `ValueError` from
unpacking zero tokens), while the same file with a fully empty interior
line parses fine — so whitespace-only lines are not failure-free in the
previewer. -/
theorem claim_C5_counterexample :
    parse_labels (("0 0.5 0.5 0.2 0.2\n \n1 0.4 0.4 0.2 0.2").data) = none ∧
    (parse_labels
        (("0 0.5 0.5 0.2 0.2\n\n1 0.4 0.4 0.2 0.2").data)).isSome = true := by
  exact ⟨by decide, by decide⟩

/-- Witness for C5 (amended): a single-space line fails in the previewer's
parser but is skipped by the remapper's loop. -/
theorem claim_C5_witness :
    parseLabelsLines [[' ']] = none ∧
    remapLines (("a.txt").data) map00 ([' '] :: []) =
      remapLines (("a.txt").data) map00 [] := by
  have h := claim_C5_blank_lines (("a.txt").data) map00 [' '] []
  exact ⟨h.2.2 (by decide) (by decide), (h.1 (by decide)).1⟩

/-- C6: with `randomize = false`, `pick_label_files` returns the first
`count` files of the lexicographically sorted enumeration (fewer when fewer
exist: the length is `min count files.length`), and returns the empty list
rather than failing on an empty directory or `count = 0`; the baseline
enumeration is a sorted permutation of the directory contents. -/
theorem claim_C6_first_count (files : List (List Char)) (count seed : Nat) :
    pick_label_files seed files count false = (sortedFiles files).take count ∧
    (pick_label_files seed files count false).length = min count files.length ∧
    pick_label_files seed [] count false = [] ∧
    pick_label_files seed files 0 false = [] ∧
    (sortedFiles files).Sorted (fun a b : List Char => a ≤ b) ∧
    (sortedFiles files).Perm files := by
  refine ⟨rfl, ?_, by simp [pick_label_files, sortedFiles], rfl, ?_, ?_⟩
  · simp [pick_label_files, List.length_take, sortedFiles,
      (List.perm_insertionSort (fun a b : List Char => a ≤ b) files).length_eq]
  · exact List.sorted_insertionSort (fun a b : List Char => a ≤ b) files
  · exact List.perm_insertionSort (fun a b : List Char => a ≤ b) files

/-- C7: with `randomize = true`, `pick_label_files` is deterministic in the
seed — equal seeds and equal input sets give the same result — and that
result is the seed-determined shuffle of the sorted enumeration truncated
to `count`, the shuffle being a permutation of the sorted files. -/
theorem claim_C7_seed_deterministic (seed1 seed2 : Nat)
    (files1 files2 : List (List Char)) (count : Nat)
    (hs : seed1 = seed2) (hf : files1 = files2) :
    pick_label_files seed1 files1 count true =
      pick_label_files seed2 files2 count true ∧
    pick_label_files seed1 files1 count true =
      (shuffleL seed1 (sortedFiles files1)).take count ∧
    (shuffleL seed1 (sortedFiles files1)).Perm (sortedFiles files1) := by
  subst hs
  subst hf
  exact ⟨rfl, rfl, shuffleL_perm seed1 (sortedFiles files1)⟩

/-- Witness for C7: two invocations with seed 0 on the same two-file set
coincide. -/
theorem claim_C7_witness :
    pick_label_files 0 [("b.txt").data, ("a.txt").data] 2 true =
      pick_label_files 0 [("b.txt").data, ("a.txt").data] 2 true :=
  (claim_C7_seed_deterministic 0 0 [("b.txt").data, ("a.txt").data]
    [("b.txt").data, ("a.txt").data] 2 rfl rfl).1

/-- C8: `find_image` tries `.jpg`, `.jpeg`, `.png` in that fixed order and
returns the first existing candidate — in particular the `.jpg` path wins
whenever it exists, regardless of a `.png` sibling — and it fails with the
"no image found" error naming the stem and directory exactly when none of
the three candidates exist. -/
theorem claim_C8_find_image (ex : List Char → Bool) (dir stem : List Char) :
    (ex (pathJoin dir (stem ++ (".jpg").data)) = true →
        find_image ex dir stem =
          Except.ok (pathJoin dir (stem ++ (".jpg").data))) ∧
    (ex (pathJoin dir (stem ++ (".jpg").data)) = false →
     ex (pathJoin dir (stem ++ (".jpeg").data)) = true →
        find_image ex dir stem =
          Except.ok (pathJoin dir (stem ++ (".jpeg").data))) ∧
    (ex (pathJoin dir (stem ++ (".jpg").data)) = false →
     ex (pathJoin dir (stem ++ (".jpeg").data)) = false →
     ex (pathJoin dir (stem ++ (".png").data)) = true →
        find_image ex dir stem =
          Except.ok (pathJoin dir (stem ++ (".png").data))) ∧
    (ex (pathJoin dir (stem ++ (".jpg").data)) = false →
     ex (pathJoin dir (stem ++ (".jpeg").data)) = false →
     ex (pathJoin dir (stem ++ (".png").data)) = false →
        find_image ex dir stem = Except.error (noImageMsg stem dir)) := by
  refine ⟨fun h1 => ?_, fun h1 h2 => ?_, fun h1 h2 h3 => ?_,
    fun h1 h2 h3 => ?_⟩
  all_goals simp [find_image, findImageAux, imageExts, *]

/-- A filesystem on which both `imgs/s1.jpg` and `imgs/s1.png` exist. -/
def exJpgPng : List Char → Bool := fun c =>
  decide (c = pathJoin (("imgs").data) ((("s1").data) ++ (".jpg").data)) ||
  decide (c = pathJoin (("imgs").data) ((("s1").data) ++ (".png").data))

/-- Witness for C8: with both `s1.jpg` and `s1.png` present, `find_image`
returns the `.jpg` path. -/
theorem claim_C8_witness :
    find_image exJpgPng (("imgs").data) (("s1").data) =
      Except.ok (pathJoin (("imgs").data) ((("s1").data) ++ (".jpg").data)) :=
  (claim_C8_find_image exJpgPng (("imgs").data) (("s1").data)).1 (by decide)

/-- C10: the display-name range test of `draw_boxes` is only an upper
bound, so a negative class id — which `parse_labels` accepts — resolves by
Python negative indexing from the end of the class-name list (`none`,
modelling `IndexError`, below `-len`); the `id_` fallback is used exactly
for `clsId ≥ len`. -/
theorem claim_C10_display_label :
    (∀ (names : List (List Char)) (i : Int),
        -((names.length : Int)) ≤ i → i < 0 →
        displayLabel names i = names.get? (i + names.length).toNat) ∧
    (∀ (names : List (List Char)) (i : Int),
        i < -((names.length : Int)) →
        displayLabel names i = none) ∧
    (∀ (names : List (List Char)) (i : Int),
        (names.length : Int) ≤ i →
        displayLabel names i = some (idFallbackChars i)) ∧
    (∀ (names : List (List Char)) (i : Int),
        0 ≤ i → i < (names.length : Int) →
        displayLabel names i = names.get? i.toNat) ∧
    (parse_labels (("-1 0.5 0.5 0.2 0.2").data)).map
        (fun l => l.map (fun r => r.1)) = some [(-1 : Int)] ∧
    displayLabel [("header").data, ("body").data, ("footer").data] (-1)
      = some (("footer").data) := by
  refine ⟨?_, ?_, ?_, ?_, by decide, by decide⟩
  · intro names i hge hlt
    have hlen : i < (names.length : Int) :=
      lt_of_lt_of_le hlt (Int.natCast_nonneg names.length)
    have hj0 : 0 ≤ i + (names.length : Int) := by omega
    have hjlt : i + (names.length : Int) < (names.length : Int) := by omega
    simp [displayLabel, pyIndex, hlen, hlt, hj0, hjlt]
  · intro names i hlt
    have hlt0 : i < 0 := by omega
    have hlen : i < (names.length : Int) := by omega
    have hj : ¬(0 ≤ i + (names.length : Int) ∧
        i + (names.length : Int) < (names.length : Int)) := by omega
    rw [displayLabel, if_pos hlen]
    simp only [pyIndex, if_pos hlt0]
    exact if_neg hj
  · intro names i hge
    have h : ¬i < (names.length : Int) := not_lt.mpr hge
    simp [displayLabel, h]
  · intro names i h0 hlt
    have h : ¬i < 0 := not_lt.mpr h0
    simp [displayLabel, pyIndex, hlt, h, h0]

/-- Witness for C10: class id `-1` against the default three names resolves
to the last name by end indexing. -/
theorem claim_C10_witness :
    displayLabel [("header").data, ("body").data, ("footer").data] (-1) =
      [("header").data, ("body").data, ("footer").data].get?
        ((-1 : Int) +
          ([("header").data, ("body").data, ("footer").data].length :
            Int)).toNat :=
  claim_C10_display_label.1
    [("header").data, ("body").data, ("footer").data] (-1)
    (by decide) (by decide)

end YoloSpec
